import Mathlib

/-!
Shallow embedding of the `eurozulu/pools` repository (Go), covering the
retention policy (`policy.go`), the windowed buffer `offsetData`
(`example/pool/main.go`), the per-reader request (`poolrequest.go`) and the
coordinator's event handling in `runPool` / `NewPool` (`pool.go`).

Go `int` is modelled as `Int`, Go `uint64` as `Nat` with explicit wraparound
`% 2^64` where the code multiplies or converts; slices are `List`s.
-/

namespace Pools

/-- Modulus of Go's `uint64` arithmetic. -/
def uint64Mod : Nat := 2 ^ 64

/-- Go's conversion `int(x)` applied to a `uint64` value `x < 2^64`:
reinterpret the bits as a two's-complement signed 64-bit integer. -/
def uint64ToInt (x : Nat) : Int :=
  if x < 2 ^ 63 then (x : Int) else (x : Int) - (uint64Mod : Int)

/-- `Policy` from `policy.go`: `Size uint64`, `Count int`. -/
structure Policy where
  Size : Nat
  Count : Int
deriving DecidableEq, Repr

/-- `Policy.IsConstrainded` from `policy.go`: `pl.Size > 0 || pl.Count > 0`. -/
def Policy.IsConstrainded (pl : Policy) : Bool :=
  decide (0 < pl.Size) || decide (0 < pl.Count)

/-- `offsetData` from `example/pool/main.go`: a slice of elements plus the
global offset of its first retained element. -/
structure offsetData (T : Type) where
  data : List T
  offset : Int
deriving DecidableEq, Repr

variable {T : Type}

/-- `Length`: `len(d.data)`. -/
def offsetData.Length (d : offsetData T) : Nat :=
  d.data.length

/-- `Offset`: the base offset field. -/
def offsetData.Offset (d : offsetData T) : Int :=
  d.offset

/-- `IndexOf`: `-1` if `offset < d.offset`; else `i := offset - d.offset`,
`-1` if `i >= len(d.data)`, else `i`. -/
def offsetData.IndexOf (d : offsetData T) (offset : Int) : Int :=
  if offset < d.offset then -1
  else if (d.data.length : Int) ≤ offset - d.offset then -1
  else offset - d.offset

/-- `LengthFrom`: `i := d.IndexOf(offset); if i < 0 { return 0 };
return len(d.data) - i`. -/
def offsetData.LengthFrom (d : offsetData T) (offset : Int) : Int :=
  if d.IndexOf offset < 0 then 0
  else (d.data.length : Int) - d.IndexOf offset

/-- `Append`: `d.data = append(d.data, t...)`. -/
def offsetData.Append (d : offsetData T) (t : List T) : offsetData T :=
  { d with data := d.data ++ t }

/-- The index actually used by `SliceFrom`: `i := d.IndexOf(offset);
if i < 0 { i = 0 }`. -/
def offsetData.sliceIndex (d : offsetData T) (offset : Int) : Int :=
  if d.IndexOf offset < 0 then 0 else d.IndexOf offset

/-- `SliceFrom`: `return d.data[i:]` with `i` the clamped index. -/
def offsetData.SliceFrom (d : offsetData T) (offset : Int) : List T :=
  d.data.drop (d.sliceIndex offset).toNat

/-- `TrimToLength`: return unchanged if `count >= len(d.data)`; else clamp
`count` at 0, `cut := len(d.data) - count`, advance `d.offset` by `cut` and
drop `cut` elements from the head. -/
def offsetData.TrimToLength (d : offsetData T) (count : Int) : offsetData T :=
  if (d.data.length : Int) ≤ count then d
  else
    { data := d.data.drop ((d.data.length : Int) - max count 0).toNat,
      offset := d.offset + ((d.data.length : Int) - max count 0) }

/-- `elementSize`: 0 on an empty buffer, else `uint64(unsafe.Sizeof(d.data[0]))`.
The machine size of `T` is not expressible in Lean, so it is the parameter
`sz` (a per-type constant: for pointer elements the pointer size, never a
function of the element values). -/
def offsetData.elementSize (sz : Nat) (d : offsetData T) : Nat :=
  if d.data.length = 0 then 0 else sz % uint64Mod

/-- `Size`: 0 on an empty buffer, else `d.elementSize() * uint64(l)` in
`uint64` arithmetic. -/
def offsetData.Size (sz : Nat) (d : offsetData T) : Nat :=
  if d.data.length = 0 then 0
  else (d.elementSize sz * d.data.length) % uint64Mod

/-- `TrimToSize`: return unchanged if `dsize == 0 || esize == 0 ||
size >= dsize`; else `d.TrimToLength(int(size / esize))`. -/
def offsetData.TrimToSize (sz : Nat) (d : offsetData T) (size : Nat) : offsetData T :=
  if d.Size sz = 0 ∨ d.elementSize sz = 0 ∨ d.Size sz ≤ size then d
  else d.TrimToLength (uint64ToInt (size / d.elementSize sz))

/-- `requestImpl` from `poolrequest.go` (position bookkeeping fields; the
context and the channels are modelled at the call sites). -/
structure requestImpl where
  offset : Int
  additions : Int
deriving DecidableEq, Repr

/-- `Offset()`: `rq.offset + rq.additions`. -/
def requestImpl.Offset (rq : requestImpl) : Int :=
  rq.offset + rq.additions

/-- `ResetOffset(offset)`: `rq.offset = offset; rq.additions = 0`. -/
def requestImpl.ResetOffset (_rq : requestImpl) (offset : Int) : requestImpl :=
  { offset := offset, additions := 0 }

/-- The loop body of `PostData`: `pushed` and `count` are the items sent to
`rq.ch` so far and the local counter; `cancelAfter = some k` means the
request's context is observed as done when the select for the `(k+1)`-th
remaining item runs, `none` means the context never fires.  When the loop
finishes normally the code runs `rq.additions += count`; when the context
fires the code returns with `rq.additions` untouched. -/
def postDataLoop (rq : requestImpl) (pushed : List T) (count : Nat)
    (data : List T) (cancelAfter : Option Nat) : requestImpl × List T :=
  match data, cancelAfter with
  | [], _ => ({ rq with additions := rq.additions + count }, pushed)
  | _ :: _, some 0 => (rq, pushed)
  | t :: rest, some (k + 1) => postDataLoop rq (pushed ++ [t]) (count + 1) rest (some k)
  | t :: rest, none => postDataLoop rq (pushed ++ [t]) (count + 1) rest none

/-- `PostData(data)` from `poolrequest.go`, returning the updated request and
the list of items actually sent to the sink channel, in order. -/
def requestImpl.PostData (rq : requestImpl) (data : List T)
    (cancelAfter : Option Nat) : requestImpl × List T :=
  postDataLoop rq [] 0 data cancelAfter

/-- Outcome of one `runPool` request event: park on the wait gate, or slice
the buffer and hand the slice to `postAndResubmit`. -/
inductive Decision (T : Type) where
  | park : Decision T
  | serve : List T → Decision T
deriving DecidableEq, Repr

/-- Lines 120-125 of `pool.go`: `rqOff := rq.Offset(); if rqOff < 0 { rqOff =
data.Offset(); rq.ResetOffset(rqOff) }`.  Returns the resolved offset and the
(possibly reset) request. -/
def resolveRequest (d : offsetData T) (rq : requestImpl) : Int × requestImpl :=
  if rq.Offset < 0 then (d.Offset, rq.ResetOffset d.Offset) else (rq.Offset, rq)

/-- Lines 119-132 of `pool.go`: the request event of `runPool`.  After
resolving a negative offset, park when `data.LengthFrom(rqOff) == 0`, else
serve `data.SliceFrom(rqOff)`. -/
def handleRequest (d : offsetData T) (rq : requestImpl) : requestImpl × Decision T :=
  if d.LengthFrom (resolveRequest d rq).1 = 0 then ((resolveRequest d rq).2, Decision.park)
  else ((resolveRequest d rq).2, Decision.serve (d.SliceFrom (resolveRequest d rq).1))

/-- Lines 115-117 of `pool.go`: the feed event of `runPool` appends the
element and releases the wait gate; no other buffer mutation happens
(`applyPolicy` is defined at lines 137-144 but is called nowhere). -/
def feedStep (d : offsetData T) (t : T) : offsetData T :=
  d.Append [t]

/-- The buffer after `runPool` has processed a sequence of feed events. -/
def runFeeds (d : offsetData T) (ts : List T) : offsetData T :=
  ts.foldl feedStep d

/-- `applyPolicy` from `pool.go` lines 137-144 (dead code: never invoked by
`runPool` or anything else). -/
def applyPolicy (sz : Nat) (pl : Policy) (d : offsetData T) : offsetData T :=
  let d1 := if 0 < pl.Size ∧ pl.Size < d.Size sz then d.TrimToSize sz pl.Size else d
  if 0 < pl.Count ∧ pl.Count < (d1.Length : Int) then d1.TrimToLength pl.Count else d1

/-- The pool state built by `NewPool`. -/
structure PoolState (T : Type) where
  buffer : offsetData T
  policy : Policy
deriving DecidableEq, Repr

/-- `NewPool` from `pool.go` lines 198-213: `log.Fatalln` (process
termination, no pool value) when the policy is unconstrained, else a pool
whose coordinator owns `offsetData{data: data, offset: 0}`. The fatal exit is
modelled as `none`. -/
def NewPool (pl : Policy) (data : List T) : Option (PoolState T) :=
  if pl.IsConstrainded then
    some { buffer := { data := data, offset := 0 }, policy := pl }
  else none

/-- The window predicate: global offset `o` is currently retained by `d`. -/
def retained (d : offsetData T) (o : Int) : Prop :=
  d.Offset ≤ o ∧ o < d.Offset + (d.Length : Int)

instance retainedDecidable (d : offsetData T) (o : Int) : Decidable (retained d o) :=
  inferInstanceAs (Decidable (_ ∧ _))

/-- The element stored at global offset `o`, i.e. `d.data[o - d.offset]`. -/
def offsetData.getAt (d : offsetData T) (o : Int) : Option T :=
  d.data[(o - d.offset).toNat]?

lemma lengthFrom_eq_zero_of_lt (d : offsetData T) (o : Int) (h : o < d.offset) :
    d.LengthFrom o = 0 := by
  simp only [offsetData.LengthFrom, offsetData.IndexOf]
  split_ifs <;> omega

lemma trimToLength_offset_le (d : offsetData T) (n : Int) :
    d.Offset ≤ (d.TrimToLength n).Offset := by
  simp only [offsetData.TrimToLength, offsetData.Offset]
  split_ifs with h
  · exact le_refl _
  · simp only []
    omega

lemma getAt_trimToLength (d : offsetData T) (n : Int) (o : Int)
    (h : retained (d.TrimToLength n) o) :
    (d.TrimToLength n).getAt o = d.getAt o := by
  by_cases hc : (d.data.length : Int) ≤ n
  · simp [offsetData.TrimToLength, hc]
  · obtain ⟨h1, h2⟩ := h
    simp only [offsetData.TrimToLength, hc, if_false, offsetData.Offset, offsetData.Length,
      offsetData.getAt] at h1 h2 ⊢
    rw [List.getElem?_drop]
    congr 1
    omega

lemma trimToSize_cases (sz size : Nat) (d : offsetData T) :
    d.TrimToSize sz size = d ∨
    d.TrimToSize sz size = d.TrimToLength (uint64ToInt (size / d.elementSize sz)) := by
  simp only [offsetData.TrimToSize]
  split_ifs <;> simp

/-- C1: the claim says each feed event appends, applies the retention policy
and fires the gate, keeping `Length ≤ Count`.  In the code `runPool`'s feed
case only appends and releases the gate; `applyPolicy` is never called, so
with the constrained policy `Count = 1` two feed events leave 2 elements in
the buffer, violating the claimed bound. -/
theorem c1_feed_event_skips_policy :
    (Policy.mk 0 1).IsConstrainded = true ∧
    (runFeeds (offsetData.mk ([] : List Nat) 0) [0, 1]).Length = 2 ∧
    ¬ (((runFeeds (offsetData.mk ([] : List Nat) 0) [0, 1]).Length : Int) ≤ (Policy.mk 0 1).Count) ∧
    (applyPolicy 8 (Policy.mk 0 1) (runFeeds (offsetData.mk ([] : List Nat) 0) [0, 1])).Length = 1 := by
  decide

/-- C2: the claim says a cancellation-interrupted `PostData` of `k` items
advances `Offset()` by exactly `k`.  In the code the early `return` in the
select skips `rq.additions += count`: pushing `[10, 20]` with the context
firing after one push sends `[10]` in order but leaves the request exactly as
it was, so `Offset()` stays 0 instead of 1; only an uninterrupted push
accumulates. -/
theorem c2_postData_cancel_loses_count :
    (requestImpl.PostData (requestImpl.mk 0 0) ([10, 20] : List Nat) (some 1)).2 = [10] ∧
    (requestImpl.PostData (requestImpl.mk 0 0) ([10, 20] : List Nat) (some 1)).1 = requestImpl.mk 0 0 ∧
    (requestImpl.PostData (requestImpl.mk 0 0) ([10, 20] : List Nat) (some 1)).1.Offset = 0 ∧
    (requestImpl.PostData (requestImpl.mk 0 0) ([10, 20] : List Nat) none).1.Offset = 2 := by
  decide

/-- C3: a read request at a non-negative offset strictly below the buffer's
base offset computes `LengthFrom = 0` and takes the park branch, delivering
no elements in that step, even when the buffer is non-empty. -/
theorem c3_stale_offset_parks (d : offsetData T) (rq : requestImpl)
    (h0 : 0 ≤ rq.Offset) (h1 : rq.Offset < d.Offset) :
    d.LengthFrom rq.Offset = 0 ∧ handleRequest d rq = (rq, Decision.park) := by
  have hlf : d.LengthFrom rq.Offset = 0 :=
    lengthFrom_eq_zero_of_lt d rq.Offset h1
  have hres : resolveRequest d rq = (rq.Offset, rq) := by
    simp only [resolveRequest]
    rw [if_neg (by omega)]
  refine ⟨hlf, ?_⟩
  simp only [handleRequest, hres]
  rw [if_pos hlf]

theorem c3_stale_offset_parks_witness :
    0 ≤ (requestImpl.mk 0 0).Offset ∧
    (requestImpl.mk 0 0).Offset < (offsetData.mk ([5] : List Nat) 2).Offset ∧
    ((offsetData.mk ([5] : List Nat) 2).LengthFrom (requestImpl.mk 0 0).Offset = 0 ∧
      handleRequest (offsetData.mk ([5] : List Nat) 2) (requestImpl.mk 0 0) =
        (requestImpl.mk 0 0, Decision.park)) :=
  ⟨by decide, by decide,
    c3_stale_offset_parks (offsetData.mk ([5] : List Nat) 2) (requestImpl.mk 0 0)
      (by decide) (by decide)⟩

/-- C4: `LengthFrom` returns 0 when the offset is below the base (evicted)
and when it is at or beyond the tail (not yet produced), and returns
`baseOffset + length - offset` for retained offsets; the two zero cases are
indistinguishable from the result. -/
theorem c4_lengthFrom_cases (d : offsetData T) (o : Int) :
    (o < d.Offset → d.LengthFrom o = 0) ∧
    (d.Offset + (d.Length : Int) ≤ o → d.LengthFrom o = 0) ∧
    (d.Offset ≤ o → o < d.Offset + (d.Length : Int) →
      d.LengthFrom o = d.Offset + (d.Length : Int) - o) := by
  simp only [offsetData.LengthFrom, offsetData.IndexOf, offsetData.Offset, offsetData.Length]
  refine ⟨fun h => ?_, fun h => ?_, fun h h2 => ?_⟩ <;> split_ifs <;> omega

theorem c4_lengthFrom_cases_witness :
    (offsetData.mk ([7, 8] : List Nat) 5).LengthFrom 3 = 0 ∧
    (offsetData.mk ([7, 8] : List Nat) 5).LengthFrom 9 = 0 ∧
    (offsetData.mk ([7, 8] : List Nat) 5).LengthFrom 6 =
      (offsetData.mk ([7, 8] : List Nat) 5).Offset +
        ((offsetData.mk ([7, 8] : List Nat) 5).Length : Int) - 6 :=
  ⟨(c4_lengthFrom_cases (offsetData.mk ([7, 8] : List Nat) 5) 3).1 (by decide),
   (c4_lengthFrom_cases (offsetData.mk ([7, 8] : List Nat) 5) 9).2.1 (by decide),
   (c4_lengthFrom_cases (offsetData.mk ([7, 8] : List Nat) 5) 6).2.2 (by decide) (by decide)⟩

/-- C5: `SliceFrom` never fails: the clamped index is always within the
bounds Go's slicing requires; a valid resolved index yields the suffix from
that index, an invalid one is clamped to 0 and yields the whole retained
sequence. -/
theorem c5_sliceFrom_total (d : offsetData T) (o : Int) :
    (0 ≤ d.sliceIndex o ∧ d.sliceIndex o ≤ (d.Length : Int)) ∧
    (0 ≤ d.IndexOf o → d.SliceFrom o = d.data.drop (d.IndexOf o).toNat) ∧
    (d.IndexOf o < 0 → d.SliceFrom o = d.data) := by
  refine ⟨?_, fun h => ?_, fun h => ?_⟩
  · simp only [offsetData.sliceIndex, offsetData.IndexOf, offsetData.Length]
    split_ifs <;> omega
  · simp only [offsetData.SliceFrom, offsetData.sliceIndex]
    rw [if_neg (by omega)]
  · simp [offsetData.SliceFrom, offsetData.sliceIndex, h]

theorem c5_sliceFrom_total_witness :
    (0 ≤ (offsetData.mk ([7, 8] : List Nat) 5).sliceIndex 6 ∧
      (offsetData.mk ([7, 8] : List Nat) 5).sliceIndex 6 ≤
        ((offsetData.mk ([7, 8] : List Nat) 5).Length : Int)) ∧
    (offsetData.mk ([7, 8] : List Nat) 5).SliceFrom 6 =
      (offsetData.mk ([7, 8] : List Nat) 5).data.drop
        ((offsetData.mk ([7, 8] : List Nat) 5).IndexOf 6).toNat ∧
    (offsetData.mk ([7, 8] : List Nat) 5).SliceFrom 3 =
      (offsetData.mk ([7, 8] : List Nat) 5).data :=
  ⟨(c5_sliceFrom_total (offsetData.mk ([7, 8] : List Nat) 5) 6).1,
   (c5_sliceFrom_total (offsetData.mk ([7, 8] : List Nat) 5) 6).2.1 (by decide),
   (c5_sliceFrom_total (offsetData.mk ([7, 8] : List Nat) 5) 3).2.2 (by decide)⟩

/-- C6: `TrimToLength n` is a no-op when the buffer holds at most `n`
elements; otherwise it drops exactly `length - max n 0` elements from the
head, leaving `max n 0` elements, and advances the base offset by the number
dropped. -/
theorem c6_trimToLength_spec (d : offsetData T) (n : Int) :
    ((d.Length : Int) ≤ n → d.TrimToLength n = d) ∧
    (n < (d.Length : Int) →
      (d.TrimToLength n).data = d.data.drop ((d.Length : Int) - max n 0).toNat ∧
      ((d.TrimToLength n).Length : Int) = max n 0 ∧
      (d.TrimToLength n).Offset = d.Offset + ((d.Length : Int) - max n 0)) := by
  constructor
  · intro h
    simp only [offsetData.TrimToLength, offsetData.Length] at h ⊢
    rw [if_pos h]
  · intro h
    simp only [offsetData.Length] at h
    simp only [offsetData.TrimToLength, offsetData.Length, offsetData.Offset,
      if_neg (by omega : ¬ (d.data.length : Int) ≤ n)]
    refine ⟨by trivial, ?_, by trivial⟩
    rw [List.length_drop]
    omega

theorem c6_trimToLength_spec_witness :
    (offsetData.mk ([7, 8] : List Nat) 5).TrimToLength 9 = offsetData.mk ([7, 8] : List Nat) 5 ∧
    ((offsetData.mk ([7, 8] : List Nat) 5).TrimToLength 1).data =
      (offsetData.mk ([7, 8] : List Nat) 5).data.drop
        (((offsetData.mk ([7, 8] : List Nat) 5).Length : Int) - max 1 0).toNat ∧
    (((offsetData.mk ([7, 8] : List Nat) 5).TrimToLength 1).Length : Int) = max 1 0 ∧
    ((offsetData.mk ([7, 8] : List Nat) 5).TrimToLength 1).Offset =
      (offsetData.mk ([7, 8] : List Nat) 5).Offset +
        (((offsetData.mk ([7, 8] : List Nat) 5).Length : Int) - max 1 0) :=
  ⟨(c6_trimToLength_spec (offsetData.mk ([7, 8] : List Nat) 5) 9).1 (by decide),
   (c6_trimToLength_spec (offsetData.mk ([7, 8] : List Nat) 5) 1).2 (by decide)⟩

/-- C7: `Append`, `TrimToLength` and `TrimToSize` all preserve the window
invariant: the base offset never decreases, and any global offset retained
both before and after the operation still maps to the same stored element. -/
theorem c7_window_invariant (sz size : Nat) (n : Int) (ts : List T) (d : offsetData T) (o : Int) :
    (d.Offset ≤ (d.Append ts).Offset ∧
      (retained d o → retained (d.Append ts) o → (d.Append ts).getAt o = d.getAt o)) ∧
    (d.Offset ≤ (d.TrimToLength n).Offset ∧
      (retained d o → retained (d.TrimToLength n) o → (d.TrimToLength n).getAt o = d.getAt o)) ∧
    (d.Offset ≤ (d.TrimToSize sz size).Offset ∧
      (retained d o → retained (d.TrimToSize sz size) o →
        (d.TrimToSize sz size).getAt o = d.getAt o)) := by
  refine ⟨⟨le_refl _, fun hb _ => ?_⟩,
          ⟨trimToLength_offset_le d n, fun _ ha => getAt_trimToLength d n o ha⟩,
          ?_⟩
  · obtain ⟨hb1, hb2⟩ := hb
    simp only [retained, offsetData.Offset, offsetData.Length] at hb1 hb2
    simp only [offsetData.getAt, offsetData.Append]
    exact List.getElem?_append_left (by omega)
  · rcases trimToSize_cases sz size d with hcase | hcase <;> rw [hcase]
    · exact ⟨le_refl _, fun _ _ => rfl⟩
    · exact ⟨trimToLength_offset_le d _, fun _ ha => getAt_trimToLength d _ o ha⟩

theorem c7_window_invariant_witness :
    ((offsetData.mk ([7, 8] : List Nat) 5).Append [9]).getAt 6 =
      (offsetData.mk ([7, 8] : List Nat) 5).getAt 6 ∧
    ((offsetData.mk ([7, 8] : List Nat) 5).TrimToLength 1).getAt 6 =
      (offsetData.mk ([7, 8] : List Nat) 5).getAt 6 ∧
    ((offsetData.mk ([7, 8] : List Nat) 5).TrimToSize 8 8).getAt 6 =
      (offsetData.mk ([7, 8] : List Nat) 5).getAt 6 :=
  ⟨((c7_window_invariant 8 8 1 [9] (offsetData.mk ([7, 8] : List Nat) 5) 6).1).2
      (by decide) (by decide),
   ((c7_window_invariant 8 8 1 [9] (offsetData.mk ([7, 8] : List Nat) 5) 6).2.1).2
      (by decide) (by decide),
   ((c7_window_invariant 8 8 1 [9] (offsetData.mk ([7, 8] : List Nat) 5) 6).2.2).2
      (by decide) (by decide)⟩

/-- C8: a request with a negative offset is resolved to the buffer's current
base offset and committed onto the session via `ResetOffset` (committed
offset = base offset, additions = 0); the step then parks or serves at that
resolved position. -/
theorem c8_negative_offset_resolution (d : offsetData T) (rq : requestImpl)
    (h : rq.Offset < 0) :
    (handleRequest d rq).1 = rq.ResetOffset d.Offset ∧
    (rq.ResetOffset d.Offset).offset = d.Offset ∧
    (rq.ResetOffset d.Offset).additions = 0 ∧
    (handleRequest d rq).2 =
      (if d.LengthFrom d.Offset = 0 then Decision.park
       else Decision.serve (d.SliceFrom d.Offset)) := by
  have hres : resolveRequest d rq = (d.Offset, rq.ResetOffset d.Offset) := by
    simp [resolveRequest, h]
  refine ⟨?_, rfl, rfl, ?_⟩ <;> simp only [handleRequest, hres] <;> split_ifs <;> rfl

theorem c8_negative_offset_resolution_witness :
    (handleRequest (offsetData.mk ([3] : List Nat) 0) (requestImpl.mk (-1) 0)).1 =
      (requestImpl.mk (-1) 0).ResetOffset (offsetData.mk ([3] : List Nat) 0).Offset ∧
    ((requestImpl.mk (-1) 0).ResetOffset (offsetData.mk ([3] : List Nat) 0).Offset).offset =
      (offsetData.mk ([3] : List Nat) 0).Offset ∧
    ((requestImpl.mk (-1) 0).ResetOffset (offsetData.mk ([3] : List Nat) 0).Offset).additions = 0 ∧
    (handleRequest (offsetData.mk ([3] : List Nat) 0) (requestImpl.mk (-1) 0)).2 =
      (if (offsetData.mk ([3] : List Nat) 0).LengthFrom
            (offsetData.mk ([3] : List Nat) 0).Offset = 0 then Decision.park
       else Decision.serve
         ((offsetData.mk ([3] : List Nat) 0).SliceFrom
           (offsetData.mk ([3] : List Nat) 0).Offset)) :=
  c8_negative_offset_resolution (offsetData.mk ([3] : List Nat) 0) (requestImpl.mk (-1) 0)
    (by decide)

/-- C9: `NewPool` with the unconstrained policy `{Size 0, Count 0}` is fatal
and yields no pool; any policy with a positive limit is constrained and
construction yields the pool seeded with the given data at base offset 0. -/
theorem c9_newPool_policy (pl : Policy) (data : List T)
    (h : 0 < pl.Size ∨ 0 < pl.Count) :
    Policy.IsConstrainded (Policy.mk 0 0) = false ∧
    NewPool (Policy.mk 0 0) data = none ∧
    pl.IsConstrainded = true ∧
    NewPool pl data = some (PoolState.mk (offsetData.mk data 0) pl) := by
  have hc : pl.IsConstrainded = true := by
    simp only [Policy.IsConstrainded, Bool.or_eq_true, decide_eq_true_eq]
    exact h
  exact ⟨rfl, rfl, hc, by simp [NewPool, hc]⟩

theorem c9_newPool_policy_witness :
    Policy.IsConstrainded (Policy.mk 0 0) = false ∧
    NewPool (Policy.mk 0 0) ([1, 2] : List Nat) = none ∧
    (Policy.mk 0 5).IsConstrainded = true ∧
    NewPool (Policy.mk 0 5) ([1, 2] : List Nat) =
      some (PoolState.mk (offsetData.mk ([1, 2] : List Nat) 0) (Policy.mk 0 5)) :=
  c9_newPool_policy (Policy.mk 0 5) ([1, 2] : List Nat) (by decide)

/-- C10: `Size` is 0 on an empty buffer and otherwise the element count times
the per-type machine element size (in `uint64` arithmetic, exact whenever the
product fits in 64 bits); it depends only on the element count, never on the
element values. -/
theorem c10_size_spec (sz : Nat) (d e : offsetData T) :
    (d.Length = 0 → d.Size sz = 0) ∧
    (0 < d.Length → d.Size sz = sz % uint64Mod * d.Length % uint64Mod) ∧
    (0 < d.Length → sz * d.Length < uint64Mod → d.Size sz = sz * d.Length) ∧
    (d.Length = e.Length → d.Size sz = e.Size sz) := by
  simp only [offsetData.Size, offsetData.elementSize, offsetData.Length]
  refine ⟨fun h => by rw [if_pos h], fun h => ?_, fun h h2 => ?_, fun h => ?_⟩
  · rw [if_neg (by omega), if_neg (by omega)]
  · have hsz : sz < uint64Mod := by
      calc sz = sz * 1 := (mul_one sz).symm
        _ ≤ sz * d.data.length := Nat.mul_le_mul_left sz h
        _ < uint64Mod := h2
    rw [if_neg (by omega), if_neg (by omega), Nat.mod_eq_of_lt hsz, Nat.mod_eq_of_lt h2]
  · rw [h]

theorem c10_size_spec_witness :
    (offsetData.mk ([] : List Nat) 0).Size 8 = 0 ∧
    (offsetData.mk ([1, 2] : List Nat) 0).Size 8 =
      8 % uint64Mod * (offsetData.mk ([1, 2] : List Nat) 0).Length % uint64Mod ∧
    (offsetData.mk ([1, 2] : List Nat) 0).Size 8 =
      8 * (offsetData.mk ([1, 2] : List Nat) 0).Length ∧
    (offsetData.mk ([1, 2] : List Nat) 0).Size 8 = (offsetData.mk ([9, 9] : List Nat) 4).Size 8 :=
  ⟨(c10_size_spec 8 (offsetData.mk ([] : List Nat) 0) (offsetData.mk ([] : List Nat) 0)).1
      (by decide),
   (c10_size_spec 8 (offsetData.mk ([1, 2] : List Nat) 0)
      (offsetData.mk ([9, 9] : List Nat) 4)).2.1 (by decide),
   (c10_size_spec 8 (offsetData.mk ([1, 2] : List Nat) 0)
      (offsetData.mk ([9, 9] : List Nat) 4)).2.2.1 (by decide) (by decide),
   (c10_size_spec 8 (offsetData.mk ([1, 2] : List Nat) 0)
      (offsetData.mk ([9, 9] : List Nat) 4)).2.2.2 (by decide)⟩

end Pools
